import Mathlib

/-!
Shallow embedding of the `awaitable` crate (files `src/lib.rs`,
`src/error.rs`, `awaitable-error/src/lib.rs`).

The crate is a completion cell: a mutex-protected tagged union
`InnerState<Input, Output>` with operations `reset`, `install_waker`,
`take_input`, `done`, `take_output`, `is_done`, `is_consumed`.
Each Rust operation locks the mutex, reads/replaces the state and
returns; here every operation is a pure function from the state to a
result paired with the successor state.  `done` may invoke a stored
waker after releasing the lock; the embedding returns the waker it
would invoke (an `Option Waker`) instead of calling it, so proofs can
speak about which wake notifications a sequence of calls produces.
-/

namespace Awaitable

/-- `Error` from `awaitable-error/src/lib.rs` (re-exported by
`src/lib.rs` as the crate's error type): the three misuse errors. -/
inductive Error where
  | Uninitialized
  | AlreadyConsumed
  | AlreadyDone
deriving DecidableEq, Repr

/-- `InnerState<Input, Output>` from `src/lib.rs`: the tagged union held
under the cell's mutex.  `Ongoing` carries `Option<Input>` and
`Option<Waker>`; the waker type is kept abstract as a type parameter. -/
inductive InnerState (Input Output Waker : Type) where
  | Uninitialized
  | Ongoing (input : Option Input) (waker : Option Waker)
  | Done (output : Output)
  | Consumed
deriving DecidableEq, Repr

variable {Input Output Waker : Type}

/-- `Awaitable::reset`: `*self.0.lock() = InnerState::Ongoing(input, None);`
— unconditionally overwrites the state. -/
def reset (_s : InnerState Input Output Waker) (input : Option Input) :
    InnerState Input Output Waker :=
  InnerState.Ongoing input none

/-- `Awaitable::install_waker`: result `Result<bool, Error>` plus the
successor state.  On `Ongoing` it stores the waker via
`*stored_waker = Some(waker)` and returns `Ok(false)`. -/
def install_waker (s : InnerState Input Output Waker) (waker : Waker) :
    Except Error Bool × InnerState Input Output Waker :=
  match s with
  | InnerState.Uninitialized => (Except.error Error.Uninitialized, s)
  | InnerState.Ongoing input _stored_waker =>
      (Except.ok false, InnerState.Ongoing input (some waker))
  | InnerState.Done v => (Except.ok true, InnerState.Done v)
  | InnerState.Consumed => (Except.error Error.AlreadyConsumed, s)

/-- `Awaitable::take_input`: on `Ongoing` returns `Ok(input.take())`,
leaving `None` in the input slot. -/
def take_input (s : InnerState Input Output Waker) :
    Except Error (Option Input) × InnerState Input Output Waker :=
  match s with
  | InnerState.Uninitialized => (Except.error Error.Uninitialized, s)
  | InnerState.Ongoing input stored_waker =>
      (Except.ok input, InnerState.Ongoing none stored_waker)
  | InnerState.Done v => (Except.ok none, InnerState.Done v)
  | InnerState.Consumed => (Except.error Error.AlreadyConsumed, s)

/-- `Awaitable::done`: `mem::replace(&mut *self.0.lock(), Done(value))`
replaces the state with `Done(value)` unconditionally, then the match on
the previous state picks the result and, for `Ongoing` with a stored
waker, wakes it.  The first component is the `Result<(), Error>`, the
second the waker that would be woken, the third the successor state. -/
def done (s : InnerState Input Output Waker) (value : Output) :
    (Except Error Unit × Option Waker) × InnerState Input Output Waker :=
  let prev_state := s
  let next := InnerState.Done value
  match prev_state with
  | InnerState.Uninitialized => ((Except.error Error.Uninitialized, none), next)
  | InnerState.Done _ => ((Except.error Error.AlreadyDone, none), next)
  | InnerState.Ongoing _input stored_waker => ((Except.ok (), stored_waker), next)
  | InnerState.Consumed => ((Except.error Error.AlreadyConsumed, none), next)

/-- `Awaitable::take_output`:
`mem::replace(&mut *self.0.lock(), Consumed)` then return `Some(value)`
iff the previous state was `Done`.  Infallible: the Rust return type is
`Option<Output>`, not a `Result`. -/
def take_output (s : InnerState Input Output Waker) :
    Option Output × InnerState Input Output Waker :=
  match s with
  | InnerState.Done value => (some value, InnerState.Consumed)
  | _ => (none, InnerState.Consumed)

/-- `Awaitable::is_done`: `matches!(&*self.0.lock(), InnerState::Done(_))`. -/
def is_done (s : InnerState Input Output Waker) : Bool :=
  match s with
  | InnerState.Done _ => true
  | _ => false

/-- `Awaitable::is_consumed`: `matches!(&*self.0.lock(), InnerState::Consumed)`. -/
def is_consumed (s : InnerState Input Output Waker) : Bool :=
  match s with
  | InnerState.Consumed => true
  | _ => false

/-- The state's tag, for stating which edges the operations traverse. -/
inductive Tag where
  | uninit
  | ongoing
  | doneTag
  | consumed
deriving DecidableEq, Repr

/-- Tag of a state. -/
def tag (s : InnerState Input Output Waker) : Tag :=
  match s with
  | InnerState.Uninitialized => Tag.uninit
  | InnerState.Ongoing _ _ => Tag.ongoing
  | InnerState.Done _ => Tag.doneTag
  | InnerState.Consumed => Tag.consumed

/-- One call of the public mutating API, for reasoning about sequences of
operations on one cell. -/
inductive Op (Input Output Waker : Type) where
  | reset (input : Option Input)
  | install_waker (waker : Waker)
  | take_input
  | done (value : Output)
  | take_output

/-- Successor state of one call, discarding the returned value. -/
def stepState (s : InnerState Input Output Waker) :
    Op Input Output Waker → InnerState Input Output Waker
  | Op.reset input => reset s input
  | Op.install_waker w => (install_waker s w).2
  | Op.take_input => (take_input s).2
  | Op.done v => (done s v).2
  | Op.take_output => (take_output s).2

/-- The wakers a single call invokes: only `done` on an `Ongoing` state
with a stored waker wakes, and it wakes that one waker. -/
def stepWakes (s : InnerState Input Output Waker) :
    Op Input Output Waker → List Waker
  | Op.done v => ((done s v).1.2).toList
  | _ => []

/-- Run a sequence of calls, returning the final state. -/
def runState (s : InnerState Input Output Waker) :
    List (Op Input Output Waker) → InnerState Input Output Waker
  | [] => s
  | op :: l => runState (stepState s op) l

/-- All wakers invoked while running a sequence of calls, in order. -/
def runWakes (s : InnerState Input Output Waker) :
    List (Op Input Output Waker) → List Waker
  | [] => []
  | op :: l => stepWakes s op ++ runWakes (stepState s op) l

/-- Whether a sequence of calls contains a `reset`. -/
def hasReset : List (Op Input Output Waker) → Bool
  | [] => false
  | Op.reset _ :: _ => true
  | _ :: l => hasReset l

/-- The edges the spec invariant I1 permits, modelled from the spec words
(for comparison with the code): Uninitialized → Ongoing, Ongoing → Done,
Done → Consumed, Consumed → Ongoing; staying on the same tag performs no
transition, so it is also allowed. -/
def claimAllowsEdge : Tag → Tag → Bool
  | Tag.uninit, Tag.ongoing => true
  | Tag.ongoing, Tag.doneTag => true
  | Tag.doneTag, Tag.consumed => true
  | Tag.consumed, Tag.ongoing => true
  | a, b => a == b

/-- A state whose cycle is over: `Done` or `Consumed`. -/
def settled (s : InnerState Input Output Waker) : Prop :=
  tag s = Tag.doneTag ∨ tag s = Tag.consumed

/-- Any call other than `reset` keeps a settled cell settled and wakes
nothing: from `Done` or `Consumed` the successor state is again `Done`
or `Consumed` (`done` errors but still leaves `Done`, `take_output`
leaves `Consumed`), and no waker is invoked. -/
lemma settled_step (s : InnerState Input Output Waker)
    (op : Op Input Output Waker) (hop : ∀ i, op ≠ Op.reset i)
    (hs : settled s) :
    settled (stepState s op) ∧ stepWakes s op = [] := by
  cases op with
  | reset i => exact absurd rfl (hop i)
  | install_waker w =>
      cases s <;>
        simp_all [settled, tag, stepState, stepWakes, install_waker]
  | take_input =>
      cases s <;>
        simp_all [settled, tag, stepState, stepWakes, take_input]
  | done v =>
      cases s <;>
        simp_all [settled, tag, stepState, stepWakes, done]
  | take_output =>
      cases s <;>
        simp_all [settled, tag, stepState, stepWakes, take_output]

/-- Running any reset-free sequence from a settled state wakes nothing
and ends settled. -/
lemma runWakes_settled (l : List (Op Input Output Waker))
    (hl : hasReset l = false) :
    ∀ s : InnerState Input Output Waker,
      settled s → runWakes s l = [] ∧ settled (runState s l) := by
  induction l with
  | nil => intro s hs; exact ⟨rfl, hs⟩
  | cons op l ih =>
      intro s hs
      have hop : ∀ i, op ≠ Op.reset i := by
        intro i h
        subst h
        simp [hasReset] at hl
      have hnext : hasReset l = false := by
        cases op <;> simp_all [hasReset]
      obtain ⟨hsettled, hwake⟩ := settled_step s op hop hs
      obtain ⟨hrun, hend⟩ := ih hnext (stepState s op) hsettled
      exact ⟨by simp [runWakes, hwake, hrun], by simpa [runState] using hend⟩

/-- A cell that has been armed and whose input slot is empty: `Ongoing`
with no input, `Done`, or `Consumed`. -/
def armedEmpty (s : InnerState Input Output Waker) : Prop :=
  match s with
  | InnerState.Ongoing none _ => True
  | InnerState.Done _ => True
  | InnerState.Consumed => True
  | _ => False

/-- Any call other than `reset` preserves `armedEmpty`: nothing but
`reset` ever refills the input slot or returns to `Uninitialized`. -/
lemma armedEmpty_step (s : InnerState Input Output Waker)
    (op : Op Input Output Waker) (hop : ∀ i, op ≠ Op.reset i)
    (hs : armedEmpty s) : armedEmpty (stepState s op) := by
  cases op with
  | reset i => exact absurd rfl (hop i)
  | install_waker w =>
      cases s with
      | Ongoing i w0 =>
          cases i <;> simp_all [armedEmpty, stepState, install_waker]
      | _ => simp_all [armedEmpty, stepState, install_waker]
  | take_input =>
      cases s with
      | Ongoing i w0 =>
          cases i <;> simp_all [armedEmpty, stepState, take_input]
      | _ => simp_all [armedEmpty, stepState, take_input]
  | done v =>
      cases s <;> simp_all [armedEmpty, stepState, done]
  | take_output =>
      cases s <;> simp_all [armedEmpty, stepState, take_output]

/-- `armedEmpty` is preserved by any reset-free sequence of calls. -/
lemma armedEmpty_run (l : List (Op Input Output Waker))
    (hl : hasReset l = false) :
    ∀ s : InnerState Input Output Waker,
      armedEmpty s → armedEmpty (runState s l) := by
  induction l with
  | nil => intro s hs; exact hs
  | cons op l ih =>
      intro s hs
      have hop : ∀ i, op ≠ Op.reset i := by
        intro i h
        subst h
        simp [hasReset] at hl
      have hnext : hasReset l = false := by
        cases op <;> simp_all [hasReset]
      exact ih hnext _ (armedEmpty_step s op hop hs)

/-- On an `armedEmpty` cell, `take_input` returns `Ok(None)` unless the
cell is `Consumed`, in which case it fails with `AlreadyConsumed`. -/
lemma take_input_armedEmpty (s : InnerState Input Output Waker)
    (hs : armedEmpty s) :
    (s ≠ InnerState.Consumed → (take_input s).1 = Except.ok none) ∧
    (s = InnerState.Consumed →
      (take_input s).1 = Except.error Error.AlreadyConsumed) := by
  cases s with
  | Ongoing i w0 => cases i <;> simp_all [armedEmpty, take_input]
  | _ => simp_all [armedEmpty, take_input]

/-- Claim C1 counterexample: from `Ongoing`, `done 1` succeeds; the second
call `done 2` returns `AlreadyDone`, but — because `done` replaces the
state with `Done(value)` before inspecting the previous state — the
stored output is now `2`, and `take_output` yields `2`, not the first
output `1` as the claim states. -/
theorem done_preserves_first_output_cex :
    (done (done (InnerState.Ongoing none none : InnerState Nat Nat Nat) 1).2 2).1.1
        = Except.error Error.AlreadyDone ∧
    (take_output (done (done (InnerState.Ongoing none none : InnerState Nat Nat Nat) 1).2 2).2).1
        = some 2 ∧
    (take_output (done (done (InnerState.Ongoing none none : InnerState Nat Nat Nat) 1).2 2).2).1
        ≠ some 1 := by
  refine ⟨rfl, rfl, ?_⟩
  decide

/-- Claim C1 (amended): from `Ongoing`, `done v1` succeeds, and a second
`done v2` without an intervening `reset` returns the `AlreadyDone`
error; however the stored output is overwritten to `v2` (the
`mem::replace` in `done` is unconditional), so a subsequent
`take_output` returns `v2`, not `v1`. -/
theorem done_twice_already_done (i : Option Input) (w : Option Waker)
    (v1 v2 : Output) :
    (done (InnerState.Ongoing i w) v1).1.1 = Except.ok () ∧
    (done (done (InnerState.Ongoing i w) v1).2 v2).1.1
        = Except.error Error.AlreadyDone ∧
    (take_output (done (done (InnerState.Ongoing i w) v1).2 v2).2).1
        = some v2 :=
  ⟨rfl, rfl, rfl⟩

/-- Claim C2 counterexample: calling `done` on a `Consumed` cell moves the
state to `Done` — the edge Consumed → Done, which is not one of the four
edges the claim allows. -/
theorem state_edges_cex :
    tag (stepState (InnerState.Consumed : InnerState Nat Nat Nat) (Op.done 5))
        = Tag.doneTag ∧
    claimAllowsEdge Tag.consumed Tag.doneTag = false := by
  decide

/-- Claim C2 (amended): `reset` moves any state to `Ongoing`, `done` moves
any state to `Done` (even when it returns an error), `take_output` moves
any state to `Consumed`; `install_waker` and `take_input` never change
the state tag.  In particular the edges Done → Ongoing (reset),
Uninitialized → Done, Done → Done, Consumed → Done (done), and
Uninitialized/Ongoing/Consumed → Consumed (take_output) also exist,
beyond the four the original claim lists. -/
theorem state_transitions (s : InnerState Input Output Waker) :
    (∀ i, tag (stepState s (Op.reset i)) = Tag.ongoing) ∧
    (∀ v, tag (stepState s (Op.done v)) = Tag.doneTag) ∧
    tag (stepState s Op.take_output) = Tag.consumed ∧
    (∀ w, tag (stepState s (Op.install_waker w)) = tag s) ∧
    tag (stepState s Op.take_input) = tag s := by
  cases s <;>
    simp [stepState, reset, done, take_output, install_waker, take_input, tag]

/-- Claim C3 counterexample: on a `Consumed` cell, `take_output` — an
operation other than `reset` — does not fail with `AlreadyConsumed`: its
return type carries no error at all and it returns `none`; likewise
`is_done` just reports `false`. -/
theorem consumed_take_output_cex :
    take_output (InnerState.Consumed : InnerState Nat Nat Nat)
        = (none, InnerState.Consumed) ∧
    is_done (InnerState.Consumed : InnerState Nat Nat Nat) = false := by
  decide

/-- Claim C3 (amended): `take_output` called when the state is not `Done`
returns `none` and leaves the cell `Consumed`; on a `Consumed` cell the
fallible operations `install_waker`, `take_input` and `done` all fail
with `AlreadyConsumed`, while `take_output` (which is infallible)
returns `none` and the probes `is_done` / `is_consumed` merely report
the state. -/
theorem take_output_not_done_consumed :
    (∀ s : InnerState Input Output Waker,
      tag s ≠ Tag.doneTag → take_output s = (none, InnerState.Consumed)) ∧
    (∀ w : Waker,
      (install_waker (InnerState.Consumed : InnerState Input Output Waker) w).1
        = Except.error Error.AlreadyConsumed) ∧
    (take_input (InnerState.Consumed : InnerState Input Output Waker)).1
        = Except.error Error.AlreadyConsumed ∧
    (∀ v : Output,
      (done (InnerState.Consumed : InnerState Input Output Waker) v).1.1
        = Except.error Error.AlreadyConsumed) ∧
    take_output (InnerState.Consumed : InnerState Input Output Waker)
        = (none, InnerState.Consumed) ∧
    is_done (InnerState.Consumed : InnerState Input Output Waker) = false ∧
    is_consumed (InnerState.Consumed : InnerState Input Output Waker) = true := by
  refine ⟨?_, fun w => rfl, rfl, fun v => rfl, rfl, rfl, rfl⟩
  intro s hs
  cases s <;> simp_all [tag, take_output]

/-- Claim C3 witness: the amended theorem applied to a concrete non-Done
state. -/
theorem take_output_not_done_consumed_witness :
    take_output (InnerState.Ongoing (some 5) none : InnerState Nat Nat Nat)
        = (none, InnerState.Consumed) :=
  (@take_output_not_done_consumed Nat Nat Nat).1 _ (by decide)

/-- Claim C4: a wake handle is invoked only by a `done` call whose
previous state was `Ongoing` with a handle installed, and that call
invokes exactly that one handle (the wake happens inside the `done`
step, i.e. synchronously within the call); once the cell is `Done` —
which it is right after a wake — no reset-free sequence of further calls
invokes any handle, so the handle fires at most once per cycle; and the
sequence reset → install_waker(w) → done(v) invokes exactly `w`,
exactly once. -/
theorem wake_discipline :
    (∀ (s : InnerState Input Output Waker) (op : Op Input Output Waker),
      stepWakes s op ≠ [] →
      ∃ v i w, op = Op.done v ∧ s = InnerState.Ongoing i (some w) ∧
        stepWakes s op = [w]) ∧
    (∀ (v : Output) (l : List (Op Input Output Waker)),
      hasReset l = false →
      runWakes (InnerState.Done v : InnerState Input Output Waker) l = []) ∧
    (∀ (s : InnerState Input Output Waker) (i : Option Input) (w : Waker)
        (v : Output),
      runWakes s [Op.reset i, Op.install_waker w, Op.done v] = [w]) := by
  refine ⟨?_, ?_, ?_⟩
  · intro s op hne
    cases op with
    | done v =>
        cases s with
        | Ongoing i w0 =>
            cases w0 with
            | none => simp [stepWakes, done] at hne
            | some w => exact ⟨v, i, w, rfl, rfl, rfl⟩
        | Uninitialized => simp [stepWakes, done] at hne
        | Done u => simp [stepWakes, done] at hne
        | Consumed => simp [stepWakes, done] at hne
    | reset i => simp [stepWakes] at hne
    | install_waker w => simp [stepWakes] at hne
    | take_input => simp [stepWakes] at hne
    | take_output => simp [stepWakes] at hne
  · intro v l hl
    exact (runWakes_settled l hl (InnerState.Done v) (Or.inl rfl)).1
  · intro s i w v
    simp [runWakes, runState, stepState, stepWakes, reset, install_waker, done]

/-- Claim C4 witness: no wake from a reset-free sequence after `Done`,
and exactly one wake from a concrete reset → install_waker → done run. -/
theorem wake_discipline_witness :
    runWakes (InnerState.Done 0 : InnerState Nat Nat Nat)
        [Op.take_output, Op.done 3] = [] ∧
    runWakes (InnerState.Uninitialized : InnerState Nat Nat Nat)
        [Op.reset (some 1), Op.install_waker 9, Op.done 7] = [9] :=
  ⟨(@wake_discipline Nat Nat Nat).2.1 0 [Op.take_output, Op.done 3] rfl,
   (@wake_discipline Nat Nat Nat).2.2 InnerState.Uninitialized (some 1) 9 7⟩

/-- Claim C6: `take_output` unconditionally transitions the state to
`Consumed`; it returns the output when the prior state was `Done` and
`none` otherwise; its Rust return type is `Option<Output>`, so it never
returns an error. -/
theorem take_output_spec :
    (∀ s : InnerState Input Output Waker,
      (take_output s).2 = InnerState.Consumed) ∧
    (∀ v : Output,
      (take_output (InnerState.Done v : InnerState Input Output Waker)).1
        = some v) ∧
    (∀ s : InnerState Input Output Waker,
      tag s ≠ Tag.doneTag → (take_output s).1 = none) := by
  refine ⟨fun s => ?_, fun v => rfl, fun s hs => ?_⟩
  · cases s <;> rfl
  · cases s <;> simp_all [tag, take_output]

/-- Claim C6 witness: the theorem applied to concrete non-Done states. -/
theorem take_output_spec_witness :
    (take_output (InnerState.Uninitialized : InnerState Nat Nat Nat)).1
        = none ∧
    (take_output (InnerState.Consumed : InnerState Nat Nat Nat)).2
        = InnerState.Consumed :=
  ⟨(@take_output_spec Nat Nat Nat).2.2 InnerState.Uninitialized (by decide),
   (@take_output_spec Nat Nat Nat).1 InnerState.Consumed⟩

/-- Claim C7: the first `take_input` after `reset(input)` returns the
original payload; every later `take_input` before the next reset returns
`Ok(none)` — unless a `take_output` has meanwhile made the cell
`Consumed`, in which case, as the claim states for `Consumed`, it fails
with `AlreadyConsumed`; from `Done` it returns `Ok(none)`, from
`Consumed` it fails with `AlreadyConsumed`, from `Uninitialized` with
`Uninitialized`. -/
theorem take_input_spec :
    (∀ (s : InnerState Input Output Waker) (i : Option Input),
      (take_input (reset s i)).1 = Except.ok i) ∧
    (∀ (s : InnerState Input Output Waker) (i : Option Input)
        (l : List (Op Input Output Waker)),
      hasReset l = false →
      (runState (take_input (reset s i)).2 l ≠ InnerState.Consumed →
        (take_input (runState (take_input (reset s i)).2 l)).1
          = Except.ok none) ∧
      (runState (take_input (reset s i)).2 l = InnerState.Consumed →
        (take_input (runState (take_input (reset s i)).2 l)).1
          = Except.error Error.AlreadyConsumed)) ∧
    (∀ v : Output,
      (take_input (InnerState.Done v : InnerState Input Output Waker)).1
        = Except.ok none) ∧
    (take_input (InnerState.Consumed : InnerState Input Output Waker)).1
        = Except.error Error.AlreadyConsumed ∧
    (take_input (InnerState.Uninitialized : InnerState Input Output Waker)).1
        = Except.error Error.Uninitialized := by
  refine ⟨fun s i => rfl, ?_, fun v => rfl, rfl, rfl⟩
  intro s i l hl
  have h0 : armedEmpty ((take_input (reset s i)).2 :
      InnerState Input Output Waker) := by
    simp [reset, take_input, armedEmpty]
  exact take_input_armedEmpty _ (armedEmpty_run l hl _ h0)

/-- Claim C7 witness: a concrete reset(5) → take_input → take_input run
returns the payload first and `none` on the repeat. -/
theorem take_input_spec_witness :
    (take_input (reset (InnerState.Uninitialized : InnerState Nat Nat Nat)
        (some 5))).1 = Except.ok (some 5) ∧
    (take_input (runState
        (take_input (reset (InnerState.Uninitialized : InnerState Nat Nat Nat)
          (some 5))).2 [Op.take_input])).1 = Except.ok none :=
  ⟨(@take_input_spec Nat Nat Nat).1 InnerState.Uninitialized (some 5),
   ((@take_input_spec Nat Nat Nat).2.1 InnerState.Uninitialized (some 5)
      [Op.take_input] rfl).1 (by decide)⟩

/-- Claim C8: on `Ongoing`, `install_waker` stores the handle and returns
`false` ("still pending"); on `Done` it returns `true` ("already
complete") without storing the handle, and no reset-free sequence of
later calls (in particular a later `done`) invokes any handle; on
`Consumed` it fails with `AlreadyConsumed`, on `Uninitialized` with
`Uninitialized`. -/
theorem install_waker_spec :
    (∀ (i : Option Input) (w0 : Option Waker) (w : Waker),
      install_waker (InnerState.Ongoing i w0 :
          InnerState Input Output Waker) w
        = (Except.ok false, InnerState.Ongoing i (some w))) ∧
    (∀ (v : Output) (w : Waker),
      install_waker (InnerState.Done v : InnerState Input Output Waker) w
        = (Except.ok true, InnerState.Done v)) ∧
    (∀ (v : Output) (w : Waker) (l : List (Op Input Output Waker)),
      hasReset l = false →
      runWakes (InnerState.Done v : InnerState Input Output Waker)
        (Op.install_waker w :: l) = []) ∧
    (∀ w : Waker,
      (install_waker (InnerState.Consumed : InnerState Input Output Waker) w).1
        = Except.error Error.AlreadyConsumed) ∧
    (∀ w : Waker,
      (install_waker (InnerState.Uninitialized :
          InnerState Input Output Waker) w).1
        = Except.error Error.Uninitialized) := by
  refine ⟨fun i w0 w => rfl, fun v w => rfl, ?_, fun w => rfl, fun w => rfl⟩
  intro v w l hl
  have h := (runWakes_settled l hl
    (InnerState.Done v : InnerState Input Output Waker) (Or.inl rfl)).1
  simp [runWakes, stepWakes, stepState, install_waker, h]

/-- Claim C8 witness: installing on a concrete `Done` cell and then
calling `done` invokes no handle. -/
theorem install_waker_spec_witness :
    runWakes (InnerState.Done 0 : InnerState Nat Nat Nat)
        [Op.install_waker 9, Op.done 7] = [] :=
  (@install_waker_spec Nat Nat Nat).2.2.1 0 9 [Op.done 7] rfl

/-- Claim C9: `done(v)` always leaves the cell in state `Done(v)` — the
`mem::replace` happens before the previous state is inspected — even
when the previous state was `Uninitialized`, `Done` or `Consumed` and an
error is returned; whatever the previous state held (input, waker, old
output) is discarded. -/
theorem done_always_done (s : InnerState Input Output Waker) (v : Output) :
    (done s v).2 = InnerState.Done v ∧
    (done (InnerState.Uninitialized : InnerState Input Output Waker) v).1.1
        = Except.error Error.Uninitialized ∧
    (∀ u : Output,
      (done (InnerState.Done u : InnerState Input Output Waker) v).1.1
        = Except.error Error.AlreadyDone) ∧
    (done (InnerState.Consumed : InnerState Input Output Waker) v).1.1
        = Except.error Error.AlreadyConsumed :=
  ⟨by cases s <;> rfl, rfl, fun u => rfl, rfl⟩

/-- Claim C10: on `Ongoing`, `install_waker` overwrites any previously
installed handle with the new one and succeeds (last-writer-wins; a
double install is never rejected), and the `Error` type has exactly the
three variants `Uninitialized`, `AlreadyConsumed`, `AlreadyDone` — there
is no `WakerAlreadyInstalled`. -/
theorem install_waker_overwrites :
    (∀ (i : Option Input) (w0 w : Waker),
      install_waker (InnerState.Ongoing i (some w0) :
          InnerState Input Output Waker) w
        = (Except.ok false, InnerState.Ongoing i (some w))) ∧
    (∀ e : Error,
      e = Error.Uninitialized ∨ e = Error.AlreadyConsumed ∨
        e = Error.AlreadyDone) := by
  refine ⟨fun i w0 w => rfl, fun e => ?_⟩
  cases e
  · exact Or.inl rfl
  · exact Or.inr (Or.inl rfl)
  · exact Or.inr (Or.inr rfl)

end Awaitable
